import Mathlib

/-!
Verification of the level/pack manifest reader and container-control layer of
`src/main.py` (a FastAPI + pydantic-v1 application), via a shallow embedding.

Modelling conventions, justified against the source and the libraries it uses:

* JSON values are the inductive `Json` below.  Manifest files are modelled by
  their parse outcome (`Except Unit Json`): the payload of a successful
  `json.load`, or a decode failure (`json.JSONDecodeError`).  Parsing raw byte
  strings is not modelled; no claim quantifies over unparsed text.
* Python dict lookups produced by `json.load` keep the LAST occurrence of a
  duplicated key, so object-member lookup below returns the last binding.
* pydantic v1 semantics used by the source:
  - `BaseModel.__init__` accepts keyword arguments only; a positional argument
    raises `TypeError` before any validation runs.
  - field assignment on a constructed model (`level.behavior_packs = ...`)
    does NOT validate (no `validate_assignment` config in the source); it
    stores the raw value and marks the field as set.
  - a `@validator` must return the (possibly transformed) value; a validator
    that falls off its end returns `None`, and `None` becomes the field value.
  - exceptions of class `ValueError`/`TypeError`/`AssertionError` raised inside
    a validator are caught and turned into a `ValidationError` entry whose
    location is the field path; `ValidationError(msg)` itself is a `TypeError`
    (its constructor needs `(errors, model)`), hence caught the same way.
  - `exclude_unset` serialization drops exactly the fields never assigned.
* The FastAPI response pipeline for `response_model=Level,
  response_model_exclude_unset=True` re-validates the returned object against
  the model and serializes only set fields; a response-validation failure
  raises a `ValidationError` (an HTTP 500).  FastAPI prefixes error locations
  with `response`; that constant prefix is not modelled.
* String/bool coercions of pydantic v1 that no settled claim exercises
  (int-to-str, "true"/1-to-bool, numeric strings for ints) are not modelled;
  every concrete input used below passes values of the exact JSON type.
-/

/-- JSON values as produced by Python's `json.load`. -/
inductive Json where
  | null : Json
  | bool (b : Bool) : Json
  | int (n : Int) : Json
  | str (s : String) : Json
  | arr (items : List Json) : Json
  | obj (members : List (String × Json)) : Json
deriving Repr

/-- Content of one manifest file, as the outcome of `json.load`:
`.error ()` models a `json.JSONDecodeError`, `.ok j` the parsed value. -/
abbrev FileContent := Except Unit Json

/-- One world directory under `/data/worlds`: the two optional manifest files
`world_behavior_packs.json` and `world_resource_packs.json`
(`none` = file absent, raising `FileNotFoundError` on `open`). -/
structure LevelDir where
  behaviorManifest : Option FileContent
  resourceManifest : Option FileContent

/-- A directory entry of the worlds root: a plain file or a subdirectory.
`Path.iterdir` yields both kinds; only `is_dir` distinguishes them. -/
inductive FsEntry where
  | file : FsEntry
  | dir (d : LevelDir) : FsEntry

/-- The worlds root `LEVELS_DIR`: its entries in directory-iteration order.
(Real directories have pairwise-distinct names; lookup takes the first.) -/
abbrev FS := List (String × FsEntry)

/-- Resolve `LEVELS_DIR / name` (the `pathlib` lookup done by `read_level`). -/
def lookupEntry : FS → String → Option FsEntry
  | [], _ => none
  | (n, e) :: rest, name => if n = name then some e else lookupEntry rest name

/-- `(LEVELS_DIR / name).is_dir()` of `src/main.py` line 115. -/
def isWorldDir (fs : FS) (name : String) : Bool :=
  match lookupEntry fs name with
  | some (.dir _) => true
  | _ => false

/-- Failure outcomes of `read_level` itself (before response serialization):
the `HTTPException(404)` of line 116, or an uncaught `json.JSONDecodeError`
escaping `json.load` (only `FileNotFoundError` is caught). -/
inductive ReadErr where
  | notFound : ReadErr
  | jsonDecode : ReadErr
deriving DecidableEq, Repr

/-- The `Level` object as `read_level` returns it: `name` is always set;
each pack field is `none` when never assigned (absent from
`__fields_set__`, default value `None`) and `some v` when the raw parsed
JSON value `v` was assigned to it (no validation on assignment). -/
structure Level where
  name : String
  behavior_packs : Option Json
  resource_packs : Option Json
deriving Repr

/-- One `try: open/json.load except FileNotFoundError: pass` block of
`read_level` (lines 120-130): absent file leaves the field unset, a decode
failure propagates, a parsed value is assigned raw. -/
def readManifest : Option FileContent → Except ReadErr (Option Json)
  | none => .ok none
  | some (.error _) => .error .jsonDecode
  | some (.ok j) => .ok (some j)

/-- The body of `read_level` past its directory check (src/main.py lines
118-134): load the two manifests of directory `d` (behavior first, so its
decode failure masks the resource file), assigning parsed values
unvalidated. -/
def read_level_dir (name : String) (d : LevelDir) : Except ReadErr Level :=
  match readManifest d.behaviorManifest with
  | .error e => .error e
  | .ok bp =>
      match readManifest d.resourceManifest with
      | .error e => .error e
      | .ok rp => .ok ⟨name, bp, rp⟩

/-- `read_level` (src/main.py lines 109-134): 404 unless the resolved path is
a directory, then `read_level_dir`. -/
def read_level (fs : FS) (name : String) : Except ReadErr Level :=
  match lookupEntry fs name with
  | some (.dir d) => read_level_dir name d
  | _ => .error .notFound

lemma read_level_of_dir (fs : FS) (name : String) (d : LevelDir)
    (h : lookupEntry fs name = some (.dir d)) :
    read_level fs name = read_level_dir name d := by
  unfold read_level
  rw [h]

/-- The names yielded by `LEVELS_DIR.iterdir()` (as `level.name`),
in directory-iteration order — every entry, files included. -/
def listWorlds (fs : FS) : List String := fs.map (·.1)

/-- Evaluation of `list(read_level(level.name) for level in it)`:
sequential, aborting at the first exception. -/
def read_levels_from (fs : FS) : List (String × FsEntry) → Except ReadErr (List Level)
  | [] => .ok []
  | ent :: rest =>
      match read_level fs ent.1 with
      | .error e => .error e
      | .ok lv =>
          match read_levels_from fs rest with
          | .error e => .error e
          | .ok lvs => .ok (lv :: lvs)

/-- `read_levels` (src/main.py lines 98-101). -/
def read_levels (fs : FS) : Except ReadErr (List Level) :=
  read_levels_from fs fs

/-- Modelled from the spec wording for `listAllWorldDetails` (spec section
4.1): "Equivalent to calling `getWorld` for every name from `listWorlds()`,
preserving enumeration order", aborting on the first error.  Compared with
`read_levels` in the refinement theorem. -/
def getWorldEach (fs : FS) : List String → Except ReadErr (List Level)
  | [] => .ok []
  | n :: rest =>
      match read_level fs n with
      | .error e => .error e
      | .ok lv =>
          match getWorldEach fs rest with
          | .error e => .error e
          | .ok lvs => .ok (lv :: lvs)

def listAllWorldDetails_spec (fs : FS) : Except ReadErr (List Level) :=
  getWorldEach fs (listWorlds fs)

/-! ## Pack validation (pydantic v1 semantics of `MCPack` / `BehaviorPack` /
`ResourcePack`, src/main.py lines 61-82) and response serialization. -/

/-- Python dict lookup on the members produced by `json.load`:
a duplicated key keeps its last value. -/
def objLookupLast (kvs : List (String × Json)) (k : String) : Option Json :=
  match kvs with
  | [] => none
  | (k0, v0) :: rest =>
      match objLookupLast rest k with
      | some v => some v
      | none => if k0 = k then some v0 else none

/-- One step of a pydantic v1 error location: a field name or a list index. -/
inductive LocKey where
  | field (name : String) : LocKey
  | index (i : Nat) : LocKey
deriving DecidableEq, Repr

/-- The kind of one pydantic v1 validation error (its `type`/`msg` pair,
abstracted to the distinctions the source can produce). -/
inductive ErrKind where
  | missing : ErrKind
  | noneNotAllowed : ErrKind
  | notAList : ErrKind
  | notADict : ErrKind
  | notAStr : ErrKind
  | notABool : ErrKind
  | notAnInt : ErrKind
  | invalidUUID : ErrKind
  /-- The error produced by `_check_version_format` (lines 71-74) when
  `len(ver) != 3`: `ValidationError("...")` is itself a `TypeError`
  (pydantic v1 `ValidationError.__init__` needs `(errors, model)`), which
  pydantic catches like any validator `TypeError`.  The resulting error
  message is the `TypeError` text; it contains no pack id. -/
  | validatorTypeError : ErrKind
deriving DecidableEq, Repr

/-- One entry of a pydantic v1 `ValidationError.errors()`. -/
structure ErrItem where
  loc : List LocKey
  kind : ErrKind
deriving DecidableEq, Repr

/-- A pydantic v1 `ValidationError`: all collected field errors, in field
declaration order. -/
abbrev PydErr := List ErrItem

/-- Hex digit value, upper or lower case (as accepted by Python
`int(s, 16)`). -/
def hexDigitVal (c : Char) : Option Nat :=
  if '0' ≤ c ∧ c ≤ '9' then some (c.toNat - '0'.toNat)
  else if 'a' ≤ c ∧ c ≤ 'f' then some (c.toNat - 'a'.toNat + 10)
  else if 'A' ≤ c ∧ c ≤ 'F' then some (c.toNat - 'A'.toNat + 10)
  else none

def parseHexNat : List Char → Nat → Option Nat
  | [], acc => some acc
  | c :: rest, acc =>
      match hexDigitVal c with
      | some d => parseHexNat rest (16 * acc + d)
      | none => none

def isPrefixOfChars : List Char → List Char → Bool
  | [], _ => true
  | _ :: _, [] => false
  | p :: ps, c :: cs => p = c && isPrefixOfChars ps cs

/-- Python `str.replace(pat, "")`: remove every (left-to-right,
non-overlapping) occurrence of `pat`.  Recursion is fueled by the input
length, which suffices since each step consumes at least one character for
a non-empty `pat`. -/
def removeAllSub (pat : List Char) : Nat → List Char → List Char
  | 0, cs => cs
  | _ + 1, [] => []
  | fuel + 1, c :: rest =>
      if isPrefixOfChars pat (c :: rest) then
        removeAllSub pat fuel ((c :: rest).drop pat.length)
      else c :: removeAllSub pat fuel rest

/-- `uuid.UUID(hex=s)` as pydantic's UUID validator calls it on a string:
drop `urn:` and `uuid:`, strip surrounding braces, drop hyphens, then require
exactly 32 hex digits.  (Python's `int(_, 16)` lenience toward underscores and
signs inside a 32-character string is not modelled; no claim exercises it.) -/
def parseUUID (s : String) : Option Nat :=
  let cs := s.toList
  let cs := removeAllSub "urn:".toList cs.length cs
  let cs := removeAllSub "uuid:".toList cs.length cs
  let isBrace : Char → Bool := fun c => c = '{' || c = '}'
  let cs := cs.dropWhile isBrace
  let cs := (cs.reverse.dropWhile isBrace).reverse
  let cs := cs.filter (fun c => c ≠ '-')
  if cs.length = 32 then parseHexNat cs 0 else none

/-- The validated `MCPack` record.  Optional fields distinguish unset
(`none`, absent from `__fields_set__`) from set-to-null (`some none`).
`version` is `Option (List Int)` because `_check_version_format` returns
`None` on the success path (a pydantic v1 validator's return value replaces
the field value), so a validated pack always carries `version = none`. -/
structure MCPack where
  name : Option (Option String)
  subpack : Option (Option String)
  can_be_redownloaded : Option (Option Bool)
  pack_id : Nat
  version : Option (List Int)
deriving DecidableEq, Repr

/-- Errors carried by a failed field validation (`[]` when it succeeded). -/
def errsOf {α : Type} : Except PydErr α → PydErr
  | .error e => e
  | .ok _ => []

/-- pydantic v1 validation of an optional `str` field. -/
def validateOptStrField (base : List LocKey) (fname : String) :
    Option Json → Except PydErr (Option (Option String))
  | none => .ok none
  | some .null => .ok (some none)
  | some (.str s) => .ok (some (some s))
  | some _ => .error [⟨base ++ [.field fname], .notAStr⟩]

/-- pydantic v1 validation of an optional `bool` field. -/
def validateOptBoolField (base : List LocKey) (fname : String) :
    Option Json → Except PydErr (Option (Option Bool))
  | none => .ok none
  | some .null => .ok (some none)
  | some (.bool b) => .ok (some (some b))
  | some _ => .error [⟨base ++ [.field fname], .notABool⟩]

/-- pydantic v1 validation of the required `pack_id: UUID` field. -/
def validateUUIDField (base : List LocKey) :
    Option Json → Except PydErr Nat
  | none => .error [⟨base ++ [.field "pack_id"], .missing⟩]
  | some (.str s) =>
      match parseUUID s with
      | some n => .ok n
      | none => .error [⟨base ++ [.field "pack_id"], .invalidUUID⟩]
  | some _ => .error [⟨base ++ [.field "pack_id"], .invalidUUID⟩]

/-- Item-wise validation of `list[int]`, collecting all item errors. -/
def validateIntItems (base : List LocKey) : List Json → Nat → Except PydErr (List Int)
  | [], _ => .ok []
  | x :: rest, i =>
      let rx : Except PydErr Int :=
        match x with
        | .int n => .ok n
        | _ => .error [⟨base ++ [.index i], .notAnInt⟩]
      let rr := validateIntItems base rest (i + 1)
      match rx, rr with
      | .ok n, .ok ns => .ok (n :: ns)
      | _, _ => .error (errsOf rx ++ errsOf rr)

/-- pydantic v1 validation of the required `version: list[int]` field,
followed by the `_check_version_format` validator (lines 70-74): a length
other than 3 raises (see `ErrKind.validatorTypeError`); length 3 falls off
the validator's end, so the field value becomes `None`. -/
def validateVersionField (base : List LocKey) :
    Option Json → Except PydErr (Option (List Int))
  | none => .error [⟨base ++ [.field "version"], .missing⟩]
  | some .null => .error [⟨base ++ [.field "version"], .noneNotAllowed⟩]
  | some (.arr xs) =>
      match validateIntItems (base ++ [.field "version"]) xs 0 with
      | .error es => .error es
      | .ok ns =>
          if ns.length = 3 then .ok none
          else .error [⟨base ++ [.field "version"], .validatorTypeError⟩]
  | some _ => .error [⟨base ++ [.field "version"], .notAList⟩]

/-- pydantic v1 validation of one `MCPack` record from a JSON value:
each field is validated in declaration order and all errors are collected.
The same machinery runs for `MCPack(**kwargs)` construction. -/
def validatePackItem (base : List LocKey) (j : Json) : Except PydErr MCPack :=
  match j with
  | .obj kvs =>
      let rName := validateOptStrField base "name" (objLookupLast kvs "name")
      let rSub := validateOptStrField base "subpack" (objLookupLast kvs "subpack")
      let rCbr := validateOptBoolField base "can_be_redownloaded"
        (objLookupLast kvs "can_be_redownloaded")
      let rId := validateUUIDField base (objLookupLast kvs "pack_id")
      let rVer := validateVersionField base (objLookupLast kvs "version")
      match rName, rSub, rCbr, rId, rVer with
      | .ok a, .ok b, .ok c, .ok d, .ok e => .ok ⟨a, b, c, d, e⟩
      | _, _, _, _, _ =>
          .error (errsOf rName ++ errsOf rSub ++ errsOf rCbr ++ errsOf rId ++ errsOf rVer)
  | _ => .error [⟨base, .notADict⟩]

/-- Validation of the items of a `list[BehaviorPack]`-typed value, collecting
all errors with their indices. -/
def validatePackItems (base : List LocKey) : List Json → Nat → Except PydErr (List MCPack)
  | [], _ => .ok []
  | x :: rest, i =>
      let rx := validatePackItem (base ++ [.index i]) x
      let rr := validatePackItems base rest (i + 1)
      match rx, rr with
      | .ok p, .ok ps => .ok (p :: ps)
      | _, _ => .error (errsOf rx ++ errsOf rr)

/-- pydantic v1 validation of a raw value against
`list[BehaviorPack] | None` (resp. resource). -/
def validatePackList (fname : String) (j : Json) : Except PydErr (Option (List MCPack)) :=
  match j with
  | .null => .ok none
  | .arr xs => (validatePackItems [.field fname] xs 0).map some
  | _ => .error [⟨[.field fname], .notAList⟩]

/-! ## Response serialization of a `Level`
(`response_model=Level, response_model_exclude_unset=True`). -/

def hexChar (n : Nat) : Char :=
  if n < 10 then Char.ofNat ('0'.toNat + n) else Char.ofNat ('a'.toNat + n - 10)

/-- `str(uuid.UUID(...))`: canonical lowercase 8-4-4-4-12 rendering of the
128-bit value, as `jsonable_encoder` emits a `UUID`. -/
def uuidToString (n : Nat) : String :=
  let ds := (List.range 32).map (fun i => hexChar (n / 16 ^ (31 - i) % 16))
  ⟨ds.take 8 ++ '-' :: (ds.drop 8).take 4 ++ '-' :: (ds.drop 12).take 4 ++
    '-' :: (ds.drop 16).take 4 ++ '-' :: ds.drop 20⟩

/-- JSON rendering of a validated pack with `exclude_unset`: unset optional
fields are omitted; `pack_id` and `version` were assigned by validation, so
they are always present (`version` as `null`, see `MCPack.version`). -/
def serializePack (p : MCPack) : Json :=
  .obj ((match p.name with
          | none => []
          | some none => [("name", Json.null)]
          | some (some s) => [("name", Json.str s)]) ++
        (match p.subpack with
          | none => []
          | some none => [("subpack", Json.null)]
          | some (some s) => [("subpack", Json.str s)]) ++
        (match p.can_be_redownloaded with
          | none => []
          | some none => [("can_be_redownloaded", Json.null)]
          | some (some b) => [("can_be_redownloaded", Json.bool b)]) ++
        [("pack_id", Json.str (uuidToString p.pack_id))] ++
        [("version", match p.version with
          | none => Json.null
          | some xs => Json.arr (xs.map Json.int))])

/-- Response validation of one pack-list field of a returned `Level`:
an unset field stays unset; a set field's raw value is validated against
`list[BehaviorPack] | None`. -/
def validateLevelField (fname : String) :
    Option Json → Except PydErr (Option (Option (List MCPack)))
  | none => .ok none
  | some v => (validatePackList fname v).map some

/-- `exclude_unset` encoding of one pack-list field: unset fields are omitted
from the object entirely; set fields are emitted (as `null` or a list). -/
def encodeLevelField (fname : String) :
    Option (Option (List MCPack)) → List (String × Json)
  | none => []
  | some none => [(fname, Json.null)]
  | some (some ps) => [(fname, Json.arr (ps.map serializePack))]

/-- The FastAPI response pipeline for `response_model=Level` with
`response_model_exclude_unset=True`: re-validate the set fields (collecting
the errors of both pack fields, in declaration order) and emit only set
fields.  A validation failure here is an uncaught `ValidationError`
(HTTP 500). -/
def serialize_level (lv : Level) : Except PydErr Json :=
  match validateLevelField "behavior_packs" lv.behavior_packs,
        validateLevelField "resource_packs" lv.resource_packs with
  | .error e1, .error e2 => .error (e1 ++ e2)
  | .error e1, .ok _ => .error e1
  | .ok _, .error e2 => .error e2
  | .ok b, .ok r =>
      .ok (.obj (("name", Json.str lv.name) ::
        (encodeLevelField "behavior_packs" b ++ encodeLevelField "resource_packs" r)))

/-- Client-visible failure of the `GET /level/{level_name}` endpoint:
the 404 of `read_level`, an uncaught `json.JSONDecodeError` (HTTP 500), or a
response-validation `ValidationError` (HTTP 500). -/
inductive ApiErr where
  | notFound : ApiErr
  | jsonDecode : ApiErr
  | validation (errs : PydErr) : ApiErr
deriving DecidableEq, Repr

/-- Whether an endpoint outcome is a pydantic `ValidationError`. -/
def isValidationFailure : Except ApiErr Json → Bool
  | .error (.validation _) => true
  | _ => false

/-- The whole `GET /level/{level_name}` endpoint: `read_level` followed by
response serialization of the returned `Level`. -/
def get_world (fs : FS) (name : String) : Except ApiErr Json :=
  match read_level fs name with
  | .error .notFound => .error .notFound
  | .error .jsonDecode => .error .jsonDecode
  | .ok lv =>
      match serialize_level lv with
      | .error e => .error (.validation e)
      | .ok j => .ok j

/-- Member lookup in a serialized JSON object (serialized objects below have
pairwise-distinct keys, so first-match lookup is unambiguous);
`none` for an absent key means the key is omitted from the output. -/
def objGetList : List (String × Json) → String → Option Json
  | [], _ => none
  | (k0, v) :: rest, k => if k0 = k then some v else objGetList rest k

def objGet : Json → String → Option Json
  | .obj kvs, k => objGetList kvs k
  | _, _ => none

/-! ## Container control (`create_control`, src/main.py lines 195-223) -/

/-- `ContainerAction` (lines 165-173): the closed action enumeration. -/
inductive ContainerAction where
  | start : ContainerAction
  | stop : ContainerAction
  | restart : ContainerAction
deriving DecidableEq, Repr

/-- Exceptions of the docker client that `create_control`/`read_status`
catch: `docker.errors.NotFound` and `docker.errors.APIError`. -/
inductive DockerErr where
  | notFound : DockerErr
  | apiError : DockerErr
deriving DecidableEq, Repr

/-- The docker runtime as `create_control` observes it:
the outcome of `docker.containers.get(MC_DOCKER_NAME)` and, per action,
the outcome of invoking that container method. -/
structure DockerCtl where
  getResult : Except DockerErr Unit
  opResult : ContainerAction → Option DockerErr

/-- `ControlOut` (lines 182-186). -/
structure ControlOut where
  action : ContainerAction
  message : Option String
deriving DecidableEq, Repr

/-- Failure outcomes of the `POST /control/` endpoint: the 404 and the two
500s of lines 209-223.  `unimplemented500` is the `case _` branch
("Whoops! The developer forgot to implement that!"). -/
inductive CtrlErr where
  | notFound404 : CtrlErr
  | api500 : CtrlErr
  | unimplemented500 : CtrlErr
deriving DecidableEq, Repr

/-- `create_control` (lines 195-223): get the container (404/500 on the
docker exceptions), then `match control_in.action` against the three enum
members with a `case _` fallback raising HTTP 500, then return
`ControlOut(**control_in.dict(), message="success")`.  The equality tests
mirror the value patterns of the Python `match`. -/
def create_control (env : DockerCtl) (a : ContainerAction) : Except CtrlErr ControlOut :=
  match env.getResult with
  | .error .notFound => .error .notFound404
  | .error .apiError => .error .api500
  | .ok _ =>
      let invoked : Option (Option DockerErr) :=
        if a = .start then some (env.opResult .start)
        else if a = .stop then some (env.opResult .stop)
        else if a = .restart then some (env.opResult .restart)
        else none
      match invoked with
      | none => .error .unimplemented500
      | some none => .ok ⟨a, some "success"⟩
      | some (some .notFound) => .error .notFound404
      | some (some .apiError) => .error .api500

/-! ## Container status (`read_status`, src/main.py lines 243-265) -/

/-- `ContainerStatusValue` (lines 226-230): the closed status enumeration. -/
inductive ContainerStatusValue where
  | running : ContainerStatusValue
  | exited : ContainerStatusValue
deriving DecidableEq, Repr

/-- Exceptions a pydantic v1 model constructor call can raise. -/
inductive PyExc where
  | validationError : PyExc
  | typeError : PyExc
deriving DecidableEq, Repr

/-- The call `ContainerStatus(container_status)` of line 252.  pydantic v1
`BaseModel.__init__` has signature `(__pydantic_self__, **data)`: it accepts
keyword arguments only, so passing the status string positionally raises
`TypeError` before any field validation runs, for every argument value. -/
def containerStatus_init (_arg : String) : Except PyExc ContainerStatusValue :=
  .error .typeError

/-- Failure outcomes of the `GET /status/` endpoint.  `uncaughtTypeError` is
a `TypeError` escaping the handler (no `except` clause matches it), which the
framework surfaces as a plain HTTP 500. -/
inductive StatusErr where
  | notFound404 : StatusErr
  | api500 : StatusErr
  | invalidStatus500 (s : String) : StatusErr
  | uncaughtTypeError : StatusErr
deriving DecidableEq, Repr

/-- `read_status` (lines 243-265): get the container (404/500 on docker
exceptions), then construct `ContainerStatus(container_status)`, turning a
`ValidationError` into the "invalid status" HTTP 500; any other exception
propagates.  The argument is the outcome of
`docker.containers.get(...).status`. -/
def read_status (q : Except DockerErr String) : Except StatusErr ContainerStatusValue :=
  match q with
  | .error .notFound => .error .notFound404
  | .error .apiError => .error .api500
  | .ok s =>
      match containerStatus_init s with
      | .ok c => .ok c
      | .error .validationError => .error (.invalidStatus500 s)
      | .error .typeError => .error .uncaughtTypeError

/-! ## Version endpoint (`root`, src/main.py lines 41-55) -/

/-- The `Version` model (lines 41-44): a single required `version: int`
field (no default). -/
structure Version where
  version : Int
deriving DecidableEq, Repr

/-- Failure outcomes of the `GET /` endpoint. -/
inductive RootErr where
  /-- The `ValidationError` raised by `Version()` at line 53: the required
  field `version` was not supplied. -/
  | fieldRequired : RootErr
  /-- A response-validation failure of the assigned version value. -/
  | responseValidation : RootErr
deriving DecidableEq, Repr

/-- `Version(**data)`: pydantic v1 construction of the model; with no
`version` argument it raises `ValidationError` (field required). -/
def version_init (data : Option Int) : Except RootErr Version :=
  match data with
  | none => .error .fieldRequired
  | some n => .ok ⟨n⟩

/-- Python `int(s)` on the startup version string, as pydantic v1 response
validation would coerce `ver.version`.  (Lenience toward underscores and
surrounding whitespace is not modelled; the branch is unreachable.) -/
def pyStrToInt (s : String) : Option Int := s.toInt?

/-- `root` (lines 51-55): `ver = Version()` — which raises, since `version`
is required — then `ver.version = __version__` (a raw, unvalidated
assignment of the startup string) and response validation against the
`Version` model.  `startupVersion` is the module global `__version__`. -/
def root (startupVersion : String) : Except RootErr Version :=
  match version_init none with
  | .error e => .error e
  | .ok _ =>
      match pyStrToInt startupVersion with
      | some n => .ok ⟨n⟩
      | none => .error .responseValidation

/-! ## Concrete filesystem fixtures used by witnesses and counterexamples -/

/-- A worlds root with one world `A` lacking both manifest files and one
world `B` whose manifest files each hold the empty JSON array. -/
def fsTwoCases : FS :=
  [("A", .dir ⟨none, none⟩),
   ("B", .dir ⟨some (.ok (.arr [])), some (.ok (.arr []))⟩)]

/-- A worlds root whose single world has an unparsable behavior manifest. -/
def fsDecodeErr : FS := [("w", .dir ⟨some (.error ()), none⟩)]

/-- A worlds root whose single world has a behavior manifest that parses to
a JSON object (wrong top-level shape). -/
def fsWrongShape : FS := [("w", .dir ⟨some (.ok (.obj [])), none⟩)]

/-- A behavior manifest holding one pack whose `version` has length 2. -/
def badVersionManifest (idStr : String) : Json :=
  .arr [.obj [("pack_id", .str idStr), ("version", .arr [.int 1, .int 11])]]

def fsBadVersion1 : FS :=
  [("w", .dir ⟨some (.ok (badVersionManifest "00000000-0000-0000-0000-000000000001")), none⟩)]

def fsBadVersion2 : FS :=
  [("w", .dir ⟨some (.ok (badVersionManifest "00000000-0000-0000-0000-000000000002")), none⟩)]

/-- A worlds root containing a single plain file, no directories. -/
def fsStray : FS := [("stray", .file)]

/-- A worlds root with one manifest-less world directory. -/
def fsOneDir : FS := [("w", .dir ⟨none, none⟩)]

/-- A worlds root whose single world's behavior manifest holds a JSON value
that is not even a list. -/
def fsRawInt : FS := [("w", .dir ⟨some (.ok (.int 5)), none⟩)]

/-- A worlds root where the second of three worlds has an unparsable
manifest. -/
def fsMidError : FS :=
  [("ok1", .dir ⟨none, none⟩),
   ("bad", .dir ⟨some (.error ()), none⟩),
   ("after", .dir ⟨none, none⟩)]

/-- The docker runtime with the container present and every container
operation succeeding. -/
def ctlEnvOk : DockerCtl := ⟨.ok (), fun _ => none⟩

/-! ## C3 -/

/-- The JSON record of claim C3: a pack with only `pack_id` and
`version = [1, 11, 9]`. -/
def c3_pack_input : Json :=
  .obj [("pack_id", .str "00000000-0000-0000-0000-000000000001"),
        ("version", .arr [.int 1, .int 11, .int 9])]

/-- C3 (code bug): a Pack parsed with only `pack_id` and
`version = [1, 11, 9]` keeps its id and leaves the optional fields unset,
but its `version` comes out `None` rather than `[1, 11, 9]`:
`_check_version_format` (src/main.py lines 71-74) never returns `ver`, and a
pydantic v1 validator's return value replaces the field value. -/
theorem C3_validator_nullifies_version :
    validatePackItem [] c3_pack_input = .ok ⟨none, none, none, 1, none⟩ ∧
    (MCPack.mk none none none 1 none).version ≠ some [1, 11, 9] :=
  ⟨rfl, by decide⟩

/-! ## C6 -/

/-- C6: when the resolved path under the worlds root is not an existing
directory, `read_level` fails with the 404 `HTTPException` (and so does the
whole endpoint) — no partially populated `Level` is produced and no manifest
is consulted. -/
theorem C6_nonexistent_world_404 (fs : FS) (name : String)
    (h : isWorldDir fs name = false) :
    read_level fs name = .error .notFound ∧ get_world fs name = .error .notFound := by
  unfold isWorldDir at h
  cases e : lookupEntry fs name with
  | none => simp [read_level, get_world, e]
  | some ent =>
      cases ent with
      | file => simp [read_level, get_world, e]
      | dir d => rw [e] at h; simp at h

/-- Witness for C6 at a concrete input. -/
theorem C6_witness :
    read_level fsOneDir "nope" = .error .notFound ∧
    get_world fsOneDir "nope" = .error .notFound :=
  C6_nonexistent_world_404 fsOneDir "nope" rfl

/-! ## C7 -/

/-- With the container present, the Python `match` routes each enum member to
the container method of the same name, so the outcome is exactly that
operation's outcome. -/
lemma create_control_dispatch (env : DockerCtl) (a : ContainerAction)
    (g : env.getResult = .ok ()) :
    create_control env a =
      match env.opResult a with
      | none => .ok ⟨a, some "success"⟩
      | some .notFound => .error .notFound404
      | some .apiError => .error .api500 := by
  unfold create_control
  rw [g]
  cases a with
  | start =>
      rcases o : env.opResult ContainerAction.start with _ | de
      · simp [o]
      · cases de <;> simp [o]
  | stop =>
      rcases o : env.opResult ContainerAction.stop with _ | de
      · simp [o]
      · cases de <;> simp [o]
  | restart =>
      rcases o : env.opResult ContainerAction.restart with _ | de
      · simp [o]
      · cases de <;> simp [o]

/-- The `case _` fallback of `create_control` is unreachable. -/
lemma create_control_ne_unimpl (env : DockerCtl) (a : ContainerAction) :
    create_control env a ≠ .error .unimplemented500 := by
  cases g : env.getResult with
  | error de => cases de <;> simp [create_control, g]
  | ok u =>
      cases u
      rw [create_control_dispatch env a g]
      rcases env.opResult a with _ | de
      · simp
      · cases de <;> simp

/-- C7: every member of the closed `ContainerAction` enumeration is routed to
its container operation of the same name, and the `case _` fallback (HTTP 500
"unimplemented") is unreachable: for no runtime state and no action does
`create_control` produce it. -/
theorem C7_dispatch_total (env : DockerCtl) (a : ContainerAction) :
    create_control env a ≠ .error .unimplemented500 ∧
    (env.getResult = .ok () →
      create_control env a =
        match env.opResult a with
        | none => .ok ⟨a, some "success"⟩
        | some .notFound => .error .notFound404
        | some .apiError => .error .api500) :=
  ⟨create_control_ne_unimpl env a, fun g => create_control_dispatch env a g⟩

/-- Witness for C7 at a concrete runtime state. -/
theorem C7_witness :
    create_control ctlEnvOk .stop ≠ .error .unimplemented500 ∧
    create_control ctlEnvOk .stop = .ok ⟨.stop, some "success"⟩ :=
  ⟨(C7_dispatch_total ctlEnvOk .stop).1, (C7_dispatch_total ctlEnvOk .stop).2 rfl⟩

/-! ## C8 -/

/-- C8 (code bug): with the container present, `read_status` never returns a
status at all — `ContainerStatus(container_status)` passes the status
positionally to a keyword-only pydantic constructor, so even the reported
values `running` and `exited` end in an uncaught `TypeError` (HTTP 500).
The absent-container 404 and docker API-error 500 branches do behave as
claimed. -/
theorem C8_status_positional_TypeError :
    read_status (.ok "running") = .error .uncaughtTypeError ∧
    read_status (.ok "exited") = .error .uncaughtTypeError ∧
    read_status (.error .notFound) = .error .notFound404 ∧
    read_status (.error .apiError) = .error .api500 :=
  ⟨rfl, rfl, rfl, rfl⟩

/-! ## C9 -/

/-- C9 (code bug): the version endpoint never succeeds. `root` constructs
`Version()` with its required `version` field missing, so every request fails
with a `ValidationError` instead of returning the startup version. -/
theorem C9_root_always_fails (startupVersion : String) :
    root startupVersion = .error .fieldRequired := rfl

/-- Witness for C9 at the concrete startup version strings the app can load. -/
theorem C9_witness :
    root "0.1.0" = .error .fieldRequired ∧ root "???" = .error .fieldRequired :=
  ⟨C9_root_always_fails "0.1.0", C9_root_always_fails "???"⟩

/-! ## C2 -/

/-- C2 counterexample: a behavior manifest with invalid JSON syntax makes
`getWorld` fail with the propagated JSON decode error, which is not a
`ValidationError` (and not the 404) — refuting the claim that every malformed
manifest surfaces as a `ValidationError`. -/
theorem C2_counterexample :
    get_world fsDecodeErr "w" = .error .jsonDecode ∧
    isValidationFailure (get_world fsDecodeErr "w") = false ∧
    get_world fsDecodeErr "w" ≠ .error .notFound := by
  refine ⟨rfl, rfl, ?_⟩
  intro hcontra
  have h2 : (Except.error ApiErr.jsonDecode : Except ApiErr Json) =
      Except.error ApiErr.notFound := hcontra
  cases Except.error.inj h2

/-- C2 amended: (1) a manifest whose JSON does not parse makes `getWorld`
fail with the uncaught decode error (HTTP 500), not a `ValidationError`;
(2) a parsed manifest of the wrong top-level shape fails with a
`ValidationError` at response serialization, located at the field; (3) a pack
whose `version` has length ≠ 3 fails with a `ValidationError` located by
field path and list index — and the error does not name the pack's id: two
manifests differing only in the pack id produce identical errors. -/
theorem C2_amended_failure_modes (fs : FS) (name : String) (d : LevelDir) :
    (lookupEntry fs name = some (.dir d) → d.behaviorManifest = some (.error ()) →
      get_world fs name = .error .jsonDecode) ∧
    get_world fsWrongShape "w" =
      .error (.validation [⟨[.field "behavior_packs"], .notAList⟩]) ∧
    get_world fsBadVersion1 "w" =
      .error (.validation
        [⟨[.field "behavior_packs", .index 0, .field "version"], .validatorTypeError⟩]) ∧
    get_world fsBadVersion1 "w" = get_world fsBadVersion2 "w" := by
  refine ⟨?_, rfl, rfl, rfl⟩
  intro h hb
  unfold get_world
  rw [read_level_of_dir fs name d h]
  unfold read_level_dir
  rw [hb]
  rfl

/-- Witness for C2's amended theorem at a concrete input. -/
theorem C2_witness : get_world fsDecodeErr "w" = .error .jsonDecode :=
  (C2_amended_failure_modes fsDecodeErr "w" ⟨some (.error ()), none⟩).1 rfl rfl

/-! ## C4 -/

/-- C4 counterexample: a plain file in the worlds root is enumerated by
`read_levels`, yet `read_level` on its name raises the 404 — so enumeration
and lookup disagree, and the whole listing fails. -/
theorem C4_counterexample :
    "stray" ∈ listWorlds fsStray ∧
    read_level fsStray "stray" = .error .notFound ∧
    read_levels fsStray = .error .notFound :=
  ⟨by decide, rfl, rfl⟩

lemma readManifest_ne_notFound (m : Option FileContent) :
    readManifest m ≠ .error .notFound := by
  rcases m with _ | (u | j) <;> simp [readManifest]

lemma read_level_dir_ne_notFound (fs : FS) (name : String) (d : LevelDir)
    (h : lookupEntry fs name = some (.dir d)) :
    read_level fs name ≠ .error .notFound := by
  rw [read_level_of_dir fs name d h]
  unfold read_level_dir
  cases h1 : readManifest d.behaviorManifest with
  | error e =>
      cases e
      · exact absurd h1 (readManifest_ne_notFound _)
      · simp
  | ok bp =>
      cases h2 : readManifest d.resourceManifest with
      | error e =>
          cases e
          · exact absurd h2 (readManifest_ne_notFound _)
          · simp
      | ok rp => simp

lemma lookup_mem_dir (fs : FS) (name : String)
    (hmem : name ∈ listWorlds fs)
    (hdirs : ∀ p ∈ fs, ∃ d, p.2 = FsEntry.dir d) :
    ∃ d, lookupEntry fs name = some (.dir d) := by
  induction fs with
  | nil => simp [listWorlds] at hmem
  | cons p rest ih =>
      obtain ⟨n, e⟩ := p
      by_cases hn : n = name
      · subst hn
        obtain ⟨d, hd⟩ := hdirs (n, e) (List.mem_cons_self _ _)
        refine ⟨d, ?_⟩
        rw [show e = FsEntry.dir d from hd]
        simp [lookupEntry]
      · have hmem' : name ∈ listWorlds rest := by
          simp only [listWorlds, List.map_cons, List.mem_cons] at hmem
          rcases hmem with h | h
          · exact absurd h.symm hn
          · exact h
        have hdirs' : ∀ p ∈ rest, ∃ d, p.2 = FsEntry.dir d :=
          fun p hp => hdirs p (List.mem_cons_of_mem _ hp)
        obtain ⟨d, hd⟩ := ih hmem' hdirs'
        exact ⟨d, by simp only [lookupEntry, if_neg hn]; exact hd⟩

/-- C4 amended: when every entry of the worlds root is a directory, every
name enumerated by the listing is accepted by `read_level` (it never raises
`NotFoundError`).  The unamended universal claim fails because the
enumeration does not filter to directories (see `C4_counterexample`). -/
theorem C4_amended_dirs_accepted (fs : FS) (name : String)
    (hmem : name ∈ listWorlds fs)
    (hdirs : ∀ p ∈ fs, ∃ d, p.2 = FsEntry.dir d) :
    read_level fs name ≠ .error .notFound := by
  obtain ⟨d, hd⟩ := lookup_mem_dir fs name hmem hdirs
  exact read_level_dir_ne_notFound fs name d hd

/-- Witness for C4's amended theorem at a concrete input. -/
theorem C4_witness : read_level fsOneDir "w" ≠ .error .notFound :=
  C4_amended_dirs_accepted fsOneDir "w" (by decide)
    (by
      intro p hp
      rw [show fsOneDir = [("w", .dir ⟨none, none⟩)] from rfl, List.mem_singleton] at hp
      subst hp
      exact ⟨⟨none, none⟩, rfl⟩)

/-! ## C5 -/

lemma read_levels_from_eq_each (fs : FS) (l : List (String × FsEntry)) :
    read_levels_from fs l = getWorldEach fs (l.map (·.1)) := by
  induction l with
  | nil => rfl
  | cons p rest ih =>
      simp only [read_levels_from, List.map_cons, getWorldEach, ih]

lemma getWorldEach_first_error (fs : FS) (n : String) (suf : List String)
    (e : ReadErr) :
    ∀ pre : List String, (∀ m ∈ pre, ∃ lv, read_level fs m = .ok lv) →
      read_level fs n = .error e →
      getWorldEach fs (pre ++ n :: suf) = .error e := by
  intro pre
  induction pre with
  | nil =>
      intro _ hn
      simp only [List.nil_append, getWorldEach]
      rw [hn]
  | cons m pre ih =>
      intro hpre hn
      obtain ⟨lv, hm⟩ := hpre m (List.mem_cons_self _ _)
      have ih2 := ih (fun x hx => hpre x (List.mem_cons_of_mem _ hx)) hn
      rw [List.cons_append]
      unfold getWorldEach
      rw [hm, ih2]

/-- C5: `read_levels` equals calling `read_level` once per enumerated name,
in enumeration order (the spec-side `listAllWorldDetails_spec`), and it
aborts the whole listing with the first per-world error: if some enumerated
name fails while all names before it succeed, the listing returns exactly
that error. -/
theorem C5_read_levels_equiv (fs : FS) :
    read_levels fs = listAllWorldDetails_spec fs ∧
    (∀ pre n suf e, listWorlds fs = pre ++ n :: suf →
      (∀ m ∈ pre, ∃ lv, read_level fs m = .ok lv) →
      read_level fs n = .error e →
      read_levels fs = .error e) := by
  have h1 : read_levels fs = listAllWorldDetails_spec fs := by
    unfold read_levels listAllWorldDetails_spec listWorlds
    exact read_levels_from_eq_each fs fs
  refine ⟨h1, ?_⟩
  intro pre n suf e hsplit hpre hn
  rw [h1]
  unfold listAllWorldDetails_spec
  rw [hsplit]
  exact getWorldEach_first_error fs n suf e pre hpre hn

/-- Witness for C5 at a concrete input: the unparsable second world aborts
the whole listing with its decode error. -/
theorem C5_witness : read_levels fsMidError = .error .jsonDecode :=
  (C5_read_levels_equiv fsMidError).2 ["ok1"] "bad" ["after"] .jsonDecode rfl
    (by
      intro m hm
      rw [List.mem_singleton] at hm
      subst hm
      exact ⟨⟨"ok1", none, none⟩, rfl⟩) rfl

/-! ## C10 -/

/-- C10: when a manifest file exists and parses to a JSON value `v`, the
`Level` returned by `read_level` carries exactly `v` in the corresponding
field, with no per-pack validation at assignment time — for every `v`,
well-formed pack list or not (the other manifest only has to not abort the
call with a decode error). -/
theorem C10_raw_assignment (fs : FS) (name : String) (d : LevelDir) (v : Json)
    (h : lookupEntry fs name = some (.dir d)) :
    (d.behaviorManifest = some (.ok v) → d.resourceManifest ≠ some (.error ()) →
      (read_level fs name).map Level.behavior_packs = .ok (some v)) ∧
    (d.resourceManifest = some (.ok v) → d.behaviorManifest ≠ some (.error ()) →
      (read_level fs name).map Level.resource_packs = .ok (some v)) := by
  rw [read_level_of_dir fs name d h]
  unfold read_level_dir
  rcases d with ⟨bm, rm⟩
  constructor
  · intro hb hr
    dsimp only at hb hr ⊢
    subst hb
    rcases rm with _ | (u | j)
    · rfl
    · cases u; exact absurd rfl hr
    · rfl
  · intro hr hb
    dsimp only at hb hr ⊢
    subst hr
    rcases bm with _ | (u | j)
    · rfl
    · cases u; exact absurd rfl hb
    · rfl

/-- Witness for C10 at a concrete input: a manifest holding the JSON number 5
(not a pack list at all) is carried verbatim by the returned `Level`. -/
theorem C10_witness :
    (read_level fsRawInt "w").map Level.behavior_packs = .ok (some (.int 5)) :=
  (C10_raw_assignment fsRawInt "w" ⟨some (.ok (.int 5)), none⟩ (.int 5) rfl).1 rfl
    (by simp)

/-! ## C1 -/

lemma read_level_ok_inv (fs : FS) (name : String) (d : LevelDir) (lv : Level)
    (h : lookupEntry fs name = some (.dir d))
    (hok : read_level fs name = .ok lv) :
    readManifest d.behaviorManifest = .ok lv.behavior_packs ∧
    readManifest d.resourceManifest = .ok lv.resource_packs ∧ lv.name = name := by
  rw [read_level_of_dir fs name d h] at hok
  unfold read_level_dir at hok
  cases h1 : readManifest d.behaviorManifest with
  | error e => rw [h1] at hok; simp at hok
  | ok bp =>
      rw [h1] at hok
      cases h2 : readManifest d.resourceManifest with
      | error e => rw [h2] at hok; simp at hok
      | ok rp =>
          rw [h2] at hok
          have hlv := Except.ok.inj hok
          subst hlv
          exact ⟨rfl, rfl, rfl⟩

lemma serialize_level_ok_inv (lv : Level) (j : Json)
    (hs : serialize_level lv = .ok j) :
    ∃ b r, validateLevelField "behavior_packs" lv.behavior_packs = .ok b ∧
      validateLevelField "resource_packs" lv.resource_packs = .ok r ∧
      j = .obj (("name", Json.str lv.name) ::
        (encodeLevelField "behavior_packs" b ++ encodeLevelField "resource_packs" r)) := by
  unfold serialize_level at hs
  cases hb : validateLevelField "behavior_packs" lv.behavior_packs with
  | error e1 =>
      rw [hb] at hs
      cases hr : validateLevelField "resource_packs" lv.resource_packs with
      | error e2 => rw [hr] at hs; simp at hs
      | ok r => rw [hr] at hs; simp at hs
  | ok b =>
      rw [hb] at hs
      cases hr : validateLevelField "resource_packs" lv.resource_packs with
      | error e2 => rw [hr] at hs; simp at hs
      | ok r =>
          rw [hr] at hs
          exact ⟨b, r, rfl, rfl, (Except.ok.inj hs).symm⟩

lemma objGet_bp (lvname : String) (b r : Option (Option (List MCPack))) :
    objGet (.obj (("name", Json.str lvname) ::
        (encodeLevelField "behavior_packs" b ++ encodeLevelField "resource_packs" r)))
      "behavior_packs" =
    (match b with
      | none => none
      | some none => some Json.null
      | some (some ps) => some (.arr (ps.map serializePack))) := by
  rcases b with _ | (_ | ps) <;> rcases r with _ | (_ | qs) <;> rfl

lemma objGet_rp (lvname : String) (b r : Option (Option (List MCPack))) :
    objGet (.obj (("name", Json.str lvname) ::
        (encodeLevelField "behavior_packs" b ++ encodeLevelField "resource_packs" r)))
      "resource_packs" =
    (match r with
      | none => none
      | some none => some Json.null
      | some (some ps) => some (.arr (ps.map serializePack))) := by
  rcases b with _ | (_ | ps) <;> rcases r with _ | (_ | qs) <;> rfl

/-- C1: for an existing world directory, a pack-list field whose manifest
file is missing is unset on the returned `Level` and its key is omitted from
the serialized output entirely, while a manifest holding the empty JSON
array yields a set field serialized as a present, empty list — so the two
cases are distinguishable in the serialized output. -/
theorem C1_unset_vs_empty (fs : FS) (name : String) (d : LevelDir)
    (h : lookupEntry fs name = some (.dir d)) :
    (∀ lv, read_level fs name = .ok lv →
      (d.behaviorManifest = none → lv.behavior_packs = none) ∧
      (d.behaviorManifest = some (.ok (.arr [])) → lv.behavior_packs = some (.arr [])) ∧
      (d.resourceManifest = none → lv.resource_packs = none) ∧
      (d.resourceManifest = some (.ok (.arr [])) → lv.resource_packs = some (.arr []))) ∧
    (∀ j, get_world fs name = .ok j →
      (d.behaviorManifest = none → objGet j "behavior_packs" = none) ∧
      (d.behaviorManifest = some (.ok (.arr [])) →
        objGet j "behavior_packs" = some (.arr [])) ∧
      (d.resourceManifest = none → objGet j "resource_packs" = none) ∧
      (d.resourceManifest = some (.ok (.arr [])) →
        objGet j "resource_packs" = some (.arr []))) := by
  constructor
  · intro lv hok
    obtain ⟨hb, hr, _⟩ := read_level_ok_inv fs name d lv h hok
    refine ⟨?_, ?_, ?_, ?_⟩
    · intro hm; rw [hm] at hb; exact (Except.ok.inj hb).symm
    · intro hm; rw [hm] at hb; exact (Except.ok.inj hb).symm
    · intro hm; rw [hm] at hr; exact (Except.ok.inj hr).symm
    · intro hm; rw [hm] at hr; exact (Except.ok.inj hr).symm
  · intro j hgw
    unfold get_world at hgw
    cases hrl : read_level fs name with
    | error e => rw [hrl] at hgw; cases e <;> simp at hgw
    | ok lv =>
        rw [hrl] at hgw
        have hgw2 : (match serialize_level lv with
            | .error e => Except.error (ApiErr.validation e)
            | .ok j => Except.ok j) = Except.ok j := hgw
        cases hs : serialize_level lv with
        | error e2 => rw [hs] at hgw2; simp at hgw2
        | ok j0 =>
            rw [hs] at hgw2
            have hj : j0 = j := Except.ok.inj hgw2
            subst hj
            obtain ⟨hb, hr, _⟩ := read_level_ok_inv fs name d lv h hrl
            obtain ⟨b, r, hvb, hvr, hjeq⟩ := serialize_level_ok_inv lv j0 hs
            subst hjeq
            refine ⟨?_, ?_, ?_, ?_⟩
            · intro hm
              have hlvb : lv.behavior_packs = none := by
                rw [hm] at hb; exact (Except.ok.inj hb).symm
              have hbv : b = none := by
                rw [hlvb] at hvb; exact (Except.ok.inj hvb).symm
              rw [objGet_bp lv.name b r, hbv]
            · intro hm
              have hlvb : lv.behavior_packs = some (.arr []) := by
                rw [hm] at hb; exact (Except.ok.inj hb).symm
              have hbv : b = some (some []) := by
                rw [hlvb] at hvb; exact (Except.ok.inj hvb).symm
              rw [objGet_bp lv.name b r, hbv]
              rfl
            · intro hm
              have hlvr : lv.resource_packs = none := by
                rw [hm] at hr; exact (Except.ok.inj hr).symm
              have hrv : r = none := by
                rw [hlvr] at hvr; exact (Except.ok.inj hvr).symm
              rw [objGet_rp lv.name b r, hrv]
            · intro hm
              have hlvr : lv.resource_packs = some (.arr []) := by
                rw [hm] at hr; exact (Except.ok.inj hr).symm
              have hrv : r = some (some []) := by
                rw [hlvr] at hvr; exact (Except.ok.inj hvr).symm
              rw [objGet_rp lv.name b r, hrv]
              rfl

/-- Witness for C1 at concrete inputs: world `A` (no manifest files) omits
the key entirely; world `B` (empty-array manifests) serializes a present,
empty list. -/
theorem C1_witness :
    objGet (Json.obj [("name", Json.str "A")]) "behavior_packs" = none ∧
    objGet (Json.obj [("name", Json.str "B"), ("behavior_packs", Json.arr []),
      ("resource_packs", Json.arr [])]) "behavior_packs" = some (Json.arr []) :=
  ⟨((C1_unset_vs_empty fsTwoCases "A" ⟨none, none⟩ rfl).2
      (Json.obj [("name", Json.str "A")]) rfl).1 rfl,
   ((C1_unset_vs_empty fsTwoCases "B" ⟨some (.ok (.arr [])), some (.ok (.arr []))⟩ rfl).2
      (Json.obj [("name", Json.str "B"), ("behavior_packs", Json.arr []),
        ("resource_packs", Json.arr [])]) rfl).2.1 rfl⟩
